import Mathlib

/-!
Verification development for the query-pattern index advisor described by the
repository's specification. The repository's own files are a README
(`src/unnamed/part_001`) and literal MongoDB query snippets
(`src/unnamed/part_000`, `src/queries/query2_text_search.js`,
`src/text-search/text_search.js`); the advisor components themselves are not
present as code, so they are modelled here from the specification's words and
the README's concrete dataset, index and query definitions.
-/

/-- Sort / key direction of an index field or a sort specification entry
(MongoDB's `1` / `-1`). -/
inductive Direction where
  | asc
  | desc
deriving DecidableEq

/-- Flip a direction (walking an index backward). -/
def flipDir : Direction → Direction
  | Direction.asc => Direction.desc
  | Direction.desc => Direction.asc

/-- Modelled from the spec: an Index Definition is an ordered sequence of
(field, direction) pairs for a compound (or single-field / multikey) index, or
a set of fields marked "text" for a text index. Each carries a name used for
the `indexUsed` output. -/
inductive IndexDef where
  | compound (name : String) (fields : List (String × Direction))
  | text (name : String) (fields : List String)
deriving DecidableEq

/-- The name of an index definition. -/
def idxName : IndexDef → String
  | IndexDef.compound nm _ => nm
  | IndexDef.text nm _ => nm

/-- Whether an index definition is a text index. -/
def isTextIdx : IndexDef → Bool
  | IndexDef.compound _ _ => false
  | IndexDef.text _ _ => true

/-- Modelled from the spec: the Index Catalog stores declared indexes in
registration order (insertion order is the final tie-break). -/
abbrev Catalog := List IndexDef

/-- Modelled from the spec: a Query Shape — equality-predicate fields,
range-predicate fields, sort specification, whether the sort is by text
relevance score, text-search terms, and result limit. -/
structure QueryShape where
  eqFields : List String
  rangeFields : List String
  sortSpec : List (String × Direction)
  sortByScore : Bool
  textTerms : List String
  limit : Option Nat
deriving DecidableEq

/-- Modelled from the spec: the Schema Registry's data the estimator consumes —
total estimated documents and per-field cardinality estimates. -/
structure Registry where
  totalDocs : Nat
  cards : List (String × Nat)
deriving DecidableEq

/-- Cardinality of a field per the registry, clamped to at least 1 so that
selectivity division is well defined (a cardinality is a distinct-value
count, hence at least 1 for any field that occurs at all). -/
def cardOf (reg : Registry) (f : String) : Nat :=
  Nat.max 1 ((reg.cards.lookup f).getD 1)

/-- Scan kind of a Plan Decision. -/
inductive ScanKind where
  | collectionScan
  | indexScan
  | textScan
deriving DecidableEq

/-- Modelled from the spec: a Plan Decision — scan kind, selected index name
(or none), whether an in-memory sort step is required, and the estimated
number of documents examined. -/
structure PlanDecision where
  scanKind : ScanKind
  indexUsed : Option String
  inMemorySort : Bool
  estimatedExamined : Nat
deriving DecidableEq

/-- Result of walking one compound index's field list against a shape:
length of the contiguous equality-matched field run, whether the single next
field matched a range predicate, and the estimated examined count. -/
structure WalkOut where
  eqLen : Nat
  rangeExt : Bool
  examined : Nat
deriving DecidableEq

/-- Modelled from the spec (§4.4 step 2): walk the index's field list in
order; each field of the contiguous run that lies in the equality set divides
the running examined estimate by that field's cardinality; immediately after
that run, a field lying in the range set halves the estimate and terminates
the walk; any other field terminates the walk with no effect. -/
def walk (reg : Registry) (eqS rangeS : List String) :
    List (String × Direction) → Nat → WalkOut
  | [], acc => ⟨0, false, acc⟩
  | (f, _) :: rest, acc =>
    if f ∈ eqS then
      let w := walk reg eqS rangeS rest (acc / cardOf reg f)
      ⟨w.eqLen + 1, w.rangeExt, w.examined⟩
    else if f ∈ rangeS then ⟨0, true, acc / 2⟩
    else ⟨0, false, acc⟩

/-- A scored candidate index: its registration position, name, field list and
walk outcome. -/
structure Cand where
  regIdx : Nat
  name : String
  fields : List (String × Direction)
  eqLen : Nat
  rangeExt : Bool
  examined : Nat
deriving DecidableEq

/-- Matched-prefix length of a candidate: the equality run plus the range
field when one extended it. -/
def matchedLen (c : Cand) : Nat :=
  c.eqLen + (if c.rangeExt then 1 else 0)

/-- Modelled from the spec: the candidate compound indexes of a catalog for a
shape — every compound index whose walk yields a nonempty matched prefix,
tagged with its registration position. -/
def candidatesOf (reg : Registry) (cat : Catalog) (s : QueryShape) : List Cand :=
  cat.enum.filterMap fun pr =>
    match pr.2 with
    | IndexDef.compound nm fs =>
      let w := walk reg s.eqFields s.rangeFields fs reg.totalDocs
      if w.eqLen + (if w.rangeExt then 1 else 0) > 0 then
        some ⟨pr.1, nm, fs, w.eqLen, w.rangeExt, w.examined⟩
      else none
    | IndexDef.text _ _ => none

/-- Modelled from the spec: candidate a is strictly preferred to candidate b
when its estimated examined count is lower; among equal scores, when its
matched prefix is longer; among equal scores and prefixes, when it was
registered earlier. -/
def betterCand (a b : Cand) : Prop :=
  a.examined < b.examined ∨
    (a.examined = b.examined ∧
      (matchedLen b < matchedLen a ∨
        (matchedLen a = matchedLen b ∧ a.regIdx < b.regIdx)))

instance (a b : Cand) : Decidable (betterCand a b) := by
  unfold betterCand; exact inferInstance

/-- One selection step: keep the running best unless the next candidate is
strictly preferred. -/
def chooseStep (best : Option Cand) (c : Cand) : Option Cand :=
  match best with
  | none => some c
  | some b => if betterCand c b then some c else some b

/-- Select the preferred candidate of a list under `betterCand`. -/
def selectBest (l : List Cand) : Option Cand :=
  l.foldl chooseStep none

/-- Flip every direction of a sort specification (an index can be walked
backward, so the exact reverse of the requested sort is also satisfied). -/
def flipSort (l : List (String × Direction)) : List (String × Direction) :=
  l.map fun p => (p.1, flipDir p.2)

/-- Modelled from the spec: the sort is satisfied by an index when no sort was
requested, or the index's field order after the equality run matches the
requested sort fields and directions exactly or in exact reverse. -/
def sortSatisfiedBy (fields : List (String × Direction)) (eqLen : Nat)
    (sortSpec : List (String × Direction)) : Bool :=
  decide (sortSpec = [] ∨
    (fields.drop eqLen).take sortSpec.length = sortSpec ∨
    (fields.drop eqLen).take sortSpec.length = flipSort sortSpec)

/-- The first text index of a catalog, if any. -/
def findTextIdx (cat : Catalog) : Option IndexDef :=
  cat.find? isTextIdx

/-- Modelled from the spec (§4.4): the Plan Estimator. Text path: with text
terms, the only eligible index is the catalog's text index — text-scan when
present (examined a fraction of total; the spec leaves the matched fraction
open, modelled as 1/(terms+1); sort satisfied when sorting by relevance),
collection-scan otherwise. Non-text path: score every candidate compound
index by its walk, select the best; no candidate means collection-scan over
all documents with an in-memory sort whenever one was requested; otherwise
index-scan, with an in-memory sort whenever the selected index does not
satisfy the requested sort. -/
def estimate (reg : Registry) (cat : Catalog) (s : QueryShape) : PlanDecision :=
  if s.textTerms.isEmpty then
    match selectBest (candidatesOf reg cat s) with
    | some c =>
      { scanKind := ScanKind.indexScan,
        indexUsed := some c.name,
        inMemorySort := !(sortSatisfiedBy c.fields c.eqLen s.sortSpec),
        estimatedExamined := c.examined }
    | none =>
      { scanKind := ScanKind.collectionScan,
        indexUsed := none,
        inMemorySort := !s.sortSpec.isEmpty,
        estimatedExamined := reg.totalDocs }
  else
    match findTextIdx cat with
    | some t =>
      { scanKind := ScanKind.textScan,
        indexUsed := some (idxName t),
        inMemorySort := !(s.sortSpec.isEmpty || s.sortByScore),
        estimatedExamined := reg.totalDocs / (s.textTerms.length + 1) }
    | none =>
      { scanKind := ScanKind.collectionScan,
        indexUsed := none,
        inMemorySort := !(s.sortSpec.isEmpty || s.sortByScore),
        estimatedExamined := reg.totalDocs }

/-! Concrete registry and catalog transcribed from the README
(`src/unnamed/part_001`): 50,000 tickets, tenants tenant_0..tenant_9,
agents agent_0..agent_19, four statuses, three priorities; the four
compound/multikey indexes of §4 and the text index of §5, in that order. -/

/-- The README's dataset characteristics as a registry. -/
def readmeRegistry : Registry :=
  { totalDocs := 50000,
    cards := [("tenantId", 10), ("agentId", 20), ("status", 4), ("priority", 3)] }

/-- The README's tenant dashboard compound index. -/
def tenantDashboardIdx : IndexDef :=
  IndexDef.compound "tenant_dashboard_idx"
    [("tenantId", Direction.asc), ("status", Direction.asc),
     ("createdAt", Direction.desc)]

/-- The README's text index on subject, description and tags. -/
def ticketTextIdx : IndexDef :=
  IndexDef.text "ticket_text_idx" ["subject", "description", "tags"]

/-- The README's index catalog in registration order. -/
def readmeCatalog : Catalog :=
  [tenantDashboardIdx,
   IndexDef.compound "agent_workload_idx"
     [("agentId", Direction.asc), ("status", Direction.asc)],
   IndexDef.compound "sla_escalation_idx" [("createdAt", Direction.asc)],
   IndexDef.compound "tags_idx" [("tags", Direction.asc)],
   ticketTextIdx]

/-- The dashboard query shape of the C1 scenario: equality on tenantId and
status, sort by createdAt descending, limit 20, no text terms. -/
def dashboardShape : QueryShape :=
  { eqFields := ["tenantId", "status"],
    rangeFields := [],
    sortSpec := [("createdAt", Direction.desc)],
    sortByScore := false,
    textTerms := [],
    limit := some 20 }

/-! The Index Catalog's mutation operation (spec §4.2). -/

/-- Error raised by the catalog when a second text index is added. -/
inductive CatalogError where
  | conflictingTextIndex
deriving DecidableEq

/-- Whether the catalog already holds a text index. -/
def hasTextIndex (cat : Catalog) : Bool :=
  cat.any isTextIdx

/-- Modelled from the spec: `addIndex` appends the definition in registration
order, and fails with `ConflictingTextIndexError` when a second text index is
added. -/
def addIndex (cat : Catalog) (idx : IndexDef) : Except CatalogError Catalog :=
  if isTextIdx idx && hasTextIndex cat then
    Except.error CatalogError.conflictingTextIndex
  else Except.ok (cat ++ [idx])

/-- Number of text indexes in a catalog. -/
def textCount (cat : Catalog) : Nat :=
  (cat.filter isTextIdx).length

/-! Spec-side characterisation of the walk (spec §4.4 step 2's prose), used to
check the single-pass walk against the specification's wording. -/

/-- The contiguous run of index fields lying in the equality set. -/
def eqMatchedFields (eqS : List String) (fields : List (String × Direction)) :
    List (String × Direction) :=
  fields.takeWhile fun p => decide (p.1 ∈ eqS)

/-- Divide a document-count estimate by the cardinality of each field of a
list in turn. -/
def dividedByCards (reg : Registry) (total : Nat)
    (fs : List (String × Direction)) : Nat :=
  fs.foldl (fun acc p => acc / cardOf reg p.1) total

/-- Whether the single index field immediately after the equality run lies in
the range set. -/
def rangeBoundary (eqS rangeS : List String)
    (fields : List (String × Direction)) : Bool :=
  match fields.drop (eqMatchedFields eqS fields).length with
  | [] => false
  | p :: _ => decide (p.1 ∈ rangeS)

/-! The two text-search snippets of the repository (C10). -/

/-- A `$text` query against a collection: the search string, whether the
projection exposes the `textScore` meta field as `score`, and whether the
results are sorted by that meta score. -/
structure TextQuery where
  collection : String
  searchTerms : String
  projectScoreMeta : Bool
  sortByScoreMeta : Bool
deriving DecidableEq

/-- Transcribed from `src/queries/query2_text_search.js`: the optimized
search query (AFTER optimization). -/
def query2AfterOptimization : TextQuery :=
  { collection := "tickets",
    searchTerms := "refund delayed response",
    projectScoreMeta := true,
    sortByScoreMeta := true }

/-- Transcribed from `src/text-search/text_search.js`: the native text-search
query. -/
def nativeTextSearchQuery : TextQuery :=
  { collection := "tickets",
    searchTerms := "refund delayed response",
    projectScoreMeta := true,
    sortByScoreMeta := true }

/-- An abstract stored document for running a text query: an identifier and
the bag of words of its indexed text fields. -/
structure TicketDoc where
  docId : Nat
  words : List String
deriving DecidableEq

/-- Relevance score of a document for a term list: the number of search terms
the document contains (more matched terms rank higher, per the README's
description of textScore). -/
def scoreDoc (terms : List String) (d : TicketDoc) : Nat :=
  terms.countP fun t => decide (t ∈ d.words)

/-- Insert a scored document into a list kept in descending score order. -/
def insertByScore (p : TicketDoc × Nat) :
    List (TicketDoc × Nat) → List (TicketDoc × Nat)
  | [] => [p]
  | q :: rest => if q.2 < p.2 then p :: q :: rest else q :: insertByScore p rest

/-- Run a text query over a document list: keep the documents matching at
least one search term with their scores, sorted by descending score when the
query sorts by the meta score. -/
def runTextQuery (docs : List TicketDoc) (q : TextQuery) :
    List (TicketDoc × Nat) :=
  let terms := q.searchTerms.splitOn " "
  let matched := docs.filterMap fun d =>
    let sc := scoreDoc terms d
    if 0 < sc then some (d, sc) else none
  if q.sortByScoreMeta then matched.foldr insertByScore [] else matched

/-- Two text queries denote the same result list over every document list. -/
def sameTextResults (q1 q2 : TextQuery) : Prop :=
  ∀ docs : List TicketDoc, runTextQuery docs q1 = runTextQuery docs q2

/-! The Advisor (spec §4.5, §5, §7). -/

/-- A workload entry: a query shape with its relative frequency weight. -/
structure WorkloadEntry where
  shape : QueryShape
  weight : Nat
deriving DecidableEq

/-- Modelled from the spec: a Workload is an ordered list of weighted query
shapes. -/
abbrev Workload := List WorkloadEntry

/-- Errors of the Advisor: an empty workload, or the candidate-evaluation
budget exhausted before convergence — the latter carries the best index set
found so far, tagging the result as a partial one rather than discarding
work. -/
inductive AdvisorError where
  | emptyWorkload
  | budgetExceeded (found : List IndexDef)
deriving DecidableEq

/-- Modelled from the spec: the candidate indexes an Advisor derives from one
shape — every nonempty prefix of the shape's equality, range and sort fields
in that order (equality and range fields ascending, sort fields with their
requested directions). -/
def shapeCandidates (s : QueryShape) : List IndexDef :=
  let base : List (String × Direction) :=
    s.eqFields.map (fun f => (f, Direction.asc)) ++
      s.rangeFields.map (fun f => (f, Direction.asc)) ++ s.sortSpec
  (List.range base.length).map fun n =>
    IndexDef.compound ("wl_cand_" ++ toString (n + 1)) (base.take (n + 1))

/-- Modelled from the spec: the Advisor's candidate generator — the distinct
per-shape candidates of the workload, plus one text index when any shape has
text terms (the spec names no fields for it). -/
def generateCandidates (w : Workload) : List IndexDef :=
  (w.foldr (fun e acc => shapeCandidates e.shape ++ acc) []).dedup ++
    (if w.any (fun e => !e.shape.textTerms.isEmpty) then
      [IndexDef.text "wl_text_cand" []]
    else [])

/-- Frequency-weighted total estimated examined documents of a workload under
a tentative catalog. -/
def workloadCost (reg : Registry) (cat : Catalog) (w : Workload) : Nat :=
  w.foldl (fun acc e => acc + e.weight * (estimate reg cat e.shape).estimatedExamined) 0

/-- One advisor evaluation step: cost the tentative addition of one candidate
and keep the cheaper of it and the running best. -/
def pickStep (reg : Registry) (w : Workload) (chosen : Catalog)
    (best : Option (IndexDef × Nat)) (c : IndexDef) : Option (IndexDef × Nat) :=
  let cost := workloadCost reg (chosen ++ [c]) w
  match best with
  | none => some (c, cost)
  | some pr => if cost < pr.2 then some (c, cost) else some pr

/-- The candidate whose tentative addition minimises the workload cost, with
that cost (first minimiser wins). -/
def pickBest (reg : Registry) (w : Workload) (chosen : Catalog)
    (cands : List IndexDef) : Option (IndexDef × Nat) :=
  cands.foldl (pickStep reg w chosen) none

/-- Modelled from the spec: the Advisor's greedy loop. Each round evaluates
every remaining candidate (consuming that much of the evaluation budget),
adds the best strict improvement, and stops when the index budget `k` is
used up or no candidate improves the cost; when the evaluation budget cannot
cover a round, it fails with the budget-exceeded error carrying the set
chosen so far. -/
def greedyLoop (reg : Registry) (w : Workload) :
    List IndexDef → List IndexDef → Nat → Nat →
      Except AdvisorError (List IndexDef)
  | _, chosen, 0, _ => Except.ok chosen
  | cands, chosen, k + 1, budget =>
    if budget < cands.length then
      Except.error (AdvisorError.budgetExceeded chosen)
    else
      match pickBest reg w chosen cands with
      | none => Except.ok chosen
      | some pr =>
        if pr.2 < workloadCost reg chosen w then
          greedyLoop reg w (cands.erase pr.1) (chosen ++ [pr.1]) k
            (budget - cands.length)
        else Except.ok chosen

/-- Modelled from the spec: the Advisor — fails with `EmptyWorkloadError` on
an empty workload, otherwise greedily selects up to `k` candidate indexes
within `budget` candidate evaluations. -/
def advise (reg : Registry) (w : Workload) (k budget : Nat) :
    Except AdvisorError (List IndexDef) :=
  if w = [] then Except.error AdvisorError.emptyWorkload
  else greedyLoop reg w (generateCandidates w) [] k budget

/-! Remaining concrete scenario inputs. -/

/-- The C4 scenario shape: equality on tenantId only, sort by updatedAt
descending. -/
def tenantUpdatedShape : QueryShape :=
  { eqFields := ["tenantId"],
    rangeFields := [],
    sortSpec := [("updatedAt", Direction.desc)],
    sortByScore := false,
    textTerms := [],
    limit := none }

/-- A shape with no equality or range predicate and a sort on createdAt. -/
def sortOnlyShape : QueryShape :=
  { eqFields := [],
    rangeFields := [],
    sortSpec := [("createdAt", Direction.desc)],
    sortByScore := false,
    textTerms := [],
    limit := none }

/-- A catalog holding only the README's SLA escalation index, whose field
list is exactly `sortOnlyShape`'s (empty) equality fields followed by its
sort field. -/
def slaOnlyCatalog : Catalog :=
  [IndexDef.compound "sla_escalation_idx" [("createdAt", Direction.asc)]]

/-- The C5 scenario shape: text terms refund and delayed, nothing else. -/
def refundDelayedShape : QueryShape :=
  { eqFields := [],
    rangeFields := [],
    sortSpec := [],
    sortByScore := false,
    textTerms := ["refund", "delayed"],
    limit := none }

/-- The empty query shape: no predicates, no sort, no text terms. -/
def emptyShape : QueryShape :=
  { eqFields := [],
    rangeFields := [],
    sortSpec := [],
    sortByScore := false,
    textTerms := [],
    limit := none }

/-- A one-entry workload with two equality fields, used to exercise the
Advisor's budget-exceeded path concretely: its two candidate prefixes cost
two evaluations per round, so a budget of 2 is exhausted after the first
greedy addition. -/
def tinyWorkload : Workload :=
  [{ shape := { eqFields := ["tenantId", "status"], rangeFields := [],
                sortSpec := [], sortByScore := false, textTerms := [],
                limit := none },
     weight := 1 }]

/-! Helper lemmas. -/

theorem walk_eq_spec (reg : Registry) (eqS rangeS : List String) :
    ∀ (fields : List (String × Direction)) (total : Nat),
      walk reg eqS rangeS fields total =
        ⟨(eqMatchedFields eqS fields).length,
         rangeBoundary eqS rangeS fields,
         if rangeBoundary eqS rangeS fields then
           dividedByCards reg total (eqMatchedFields eqS fields) / 2
         else dividedByCards reg total (eqMatchedFields eqS fields)⟩ := by
  intro fields
  induction fields with
  | nil =>
    intro total
    simp [walk, eqMatchedFields, rangeBoundary, dividedByCards]
  | cons p rest ih =>
    intro total
    obtain ⟨f, d⟩ := p
    by_cases hf : f ∈ eqS
    · have hmf : eqMatchedFields eqS ((f, d) :: rest) =
          (f, d) :: eqMatchedFields eqS rest := by
        simp [eqMatchedFields, hf]
      have hrb : rangeBoundary eqS rangeS ((f, d) :: rest) =
          rangeBoundary eqS rangeS rest := by
        simp [rangeBoundary, hmf]
      simp [walk, hf, ih, hmf, hrb, dividedByCards]
    · have hmf : eqMatchedFields eqS ((f, d) :: rest) = [] := by
        simp [eqMatchedFields, hf]
      by_cases hr : f ∈ rangeS <;>
        simp [walk, hf, hr, rangeBoundary, hmf, dividedByCards]

theorem walk_tail_irrelevant (reg : Registry) (eqS rangeS : List String)
    (x : String × Direction) (hx : x.1 ∉ eqS) :
    ∀ (pre t1 t2 : List (String × Direction)) (total : Nat),
      walk reg eqS rangeS (pre ++ x :: t1) total =
        walk reg eqS rangeS (pre ++ x :: t2) total := by
  intro pre
  induction pre with
  | nil =>
    intro t1 t2 total
    obtain ⟨f, d⟩ := x
    simp only [] at hx
    by_cases hr : f ∈ rangeS <;> simp [walk, hx, hr]
  | cons p rest ih =>
    intro t1 t2 total
    obtain ⟨f, d⟩ := p
    by_cases hf : f ∈ eqS
    · have hrec := ih t1 t2 (total / cardOf reg f)
      simp [walk, hf, hrec]
    · by_cases hr : f ∈ rangeS <;> simp [walk, hf, hr]

theorem walk_nil_sets (reg : Registry) (fields : List (String × Direction))
    (acc : Nat) : walk reg [] [] fields acc = ⟨0, false, acc⟩ := by
  cases fields with
  | nil => rfl
  | cons p rest =>
    obtain ⟨f, d⟩ := p
    simp [walk]

theorem candidatesOf_empty_shape (reg : Registry) (cat : Catalog)
    (s : QueryShape) (h1 : s.eqFields = []) (h2 : s.rangeFields = []) :
    candidatesOf reg cat s = [] := by
  unfold candidatesOf
  rw [List.filterMap_eq_nil_iff]
  intro pr _
  obtain ⟨i, idx⟩ := pr
  cases idx with
  | compound nm fs => simp [h1, h2, walk_nil_sets]
  | text nm fs => rfl

theorem betterCand_irrefl (a : Cand) : ¬ betterCand a a := by
  unfold betterCand; omega

theorem betterCand_asymm {a b : Cand} (h : betterCand a b) : ¬ betterCand b a := by
  unfold betterCand at *; omega

theorem betterCand_trans {a b c : Cand} (h1 : betterCand a b)
    (h2 : betterCand b c) : betterCand a c := by
  unfold betterCand at *; omega

theorem betterCand_negtrans {a b c : Cand} (h1 : ¬ betterCand a b)
    (h2 : ¬ betterCand b c) : ¬ betterCand a c := by
  unfold betterCand at *; omega

theorem selectBest_go (l : List Cand) :
    ∀ (b0 b : Cand), l.foldl chooseStep (some b0) = some b →
      (b = b0 ∨ b ∈ l) ∧ ¬ betterCand b0 b ∧ ∀ c ∈ l, ¬ betterCand c b := by
  induction l with
  | nil =>
    intro b0 b h
    simp at h
    subst h
    exact ⟨Or.inl rfl, betterCand_irrefl _, by simp⟩
  | cons c t ih =>
    intro b0 b h
    rw [List.foldl_cons] at h
    by_cases hc : betterCand c b0
    · rw [show chooseStep (some b0) c = some c by simp [chooseStep, hc]] at h
      obtain ⟨hmem, hb1, hall⟩ := ih c b h
      refine ⟨?_, ?_, ?_⟩
      · rcases hmem with rfl | hm
        · exact Or.inr (List.mem_cons_self _ _)
        · exact Or.inr (List.mem_cons_of_mem _ hm)
      · intro hb0b
        exact hb1 (betterCand_trans hc hb0b)
      · intro x hx
        rcases List.mem_cons.mp hx with rfl | hxt
        · exact hb1
        · exact hall x hxt
    · rw [show chooseStep (some b0) c = some b0 by simp [chooseStep, hc]] at h
      obtain ⟨hmem, hb1, hall⟩ := ih b0 b h
      refine ⟨?_, hb1, ?_⟩
      · rcases hmem with rfl | hm
        · exact Or.inl rfl
        · exact Or.inr (List.mem_cons_of_mem _ hm)
      · intro x hx
        rcases List.mem_cons.mp hx with rfl | hxt
        · exact betterCand_negtrans hc hb1
        · exact hall x hxt

theorem takeWhile_append_all {α : Type} (q : α → Bool) :
    ∀ (pre : List α) (x : α) (t : List α),
      (∀ p ∈ pre, q p = true) → q x = false →
      (pre ++ x :: t).takeWhile q = pre := by
  intro pre
  induction pre with
  | nil =>
    intro x t _ hx
    simp [List.takeWhile_cons, hx]
  | cons p rest ih =>
    intro x t hall hx
    have hp : q p = true := hall p (List.mem_cons_self _ _)
    simp [List.takeWhile_cons, hp,
      ih x t (fun a ha => hall a (List.mem_cons_of_mem _ ha)) hx]

theorem pickBest_go_mem (reg : Registry) (w : Workload) (chosen : Catalog) :
    ∀ (cands : List IndexDef) (init : Option (IndexDef × Nat))
      (pr : IndexDef × Nat),
      cands.foldl (pickStep reg w chosen) init = some pr →
      init = some pr ∨ pr.1 ∈ cands := by
  intro cands
  induction cands with
  | nil =>
    intro init pr h
    simp at h
    exact Or.inl (by rw [h])
  | cons c t ih =>
    intro init pr h
    rw [List.foldl_cons] at h
    rcases ih _ pr h with hstep | hmem
    · cases init with
      | none =>
        simp only [pickStep] at hstep
        cases hstep
        exact Or.inr (List.mem_cons_self _ _)
      | some q =>
        by_cases hlt : workloadCost reg (chosen ++ [c]) w < q.2
        · simp only [pickStep, if_pos hlt] at hstep
          cases hstep
          exact Or.inr (List.mem_cons_self _ _)
        · simp only [pickStep, if_neg hlt] at hstep
          exact Or.inl hstep
    · exact Or.inr (List.mem_cons_of_mem _ hmem)

theorem pickBest_mem (reg : Registry) (w : Workload) (chosen : Catalog)
    (cands : List IndexDef) (pr : IndexDef × Nat)
    (h : pickBest reg w chosen cands = some pr) : pr.1 ∈ cands := by
  rcases pickBest_go_mem reg w chosen cands none pr h with h1 | h2
  · exact absurd h1 (by simp)
  · exact h2

theorem greedyLoop_error_sub (reg : Registry) (w : Workload) :
    ∀ (k : Nat) (cands chosen : List IndexDef) (budget : Nat)
      (p : List IndexDef),
      greedyLoop reg w cands chosen k budget =
        Except.error (AdvisorError.budgetExceeded p) →
      ∀ x ∈ p, x ∈ chosen ∨ x ∈ cands := by
  intro k
  induction k with
  | zero =>
    intro cands chosen budget p h
    simp [greedyLoop] at h
  | succ k ih =>
    intro cands chosen budget p h
    rw [greedyLoop] at h
    by_cases hb : budget < cands.length
    · rw [if_pos hb] at h
      have hp : chosen = p := by
        injection h with h1
        injection h1
      intro x hx
      exact Or.inl (hp ▸ hx)
    · rw [if_neg hb] at h
      split at h
      · simp at h
      · rename_i pr hpk
        split at h
        · intro x hx
          rcases ih _ _ _ _ h x hx with hxc | hxcand
          · rcases List.mem_append.mp hxc with h1 | h2
            · exact Or.inl h1
            · have hxpr : x = pr.1 := by simpa using h2
              exact Or.inr (hxpr ▸ pickBest_mem reg w chosen cands pr hpk)
          · exact Or.inr (List.mem_of_mem_erase hxcand)
        · simp at h

theorem greedyLoop_no_empty_error (reg : Registry) (w : Workload) :
    ∀ (k : Nat) (cands chosen : List IndexDef) (budget : Nat),
      greedyLoop reg w cands chosen k budget ≠
        Except.error AdvisorError.emptyWorkload := by
  intro k
  induction k with
  | zero =>
    intro cands chosen budget
    simp [greedyLoop]
  | succ k ih =>
    intro cands chosen budget
    rw [greedyLoop]
    by_cases hb : budget < cands.length
    · rw [if_pos hb]
      simp
    · rw [if_neg hb]
      split
      · simp
      · split
        · exact ih _ _ _
        · simp

theorem selectBest_spec (l : List Cand) (b : Cand) (h : selectBest l = some b) :
    b ∈ l ∧ ∀ c ∈ l, ¬ betterCand c b := by
  cases l with
  | nil => simp [selectBest] at h
  | cons c t =>
    have h2 : t.foldl chooseStep (some c) = some b := by
      simpa [selectBest, chooseStep] using h
    obtain ⟨hmem, hcb, hall⟩ := selectBest_go t c b h2
    refine ⟨?_, ?_⟩
    · rcases hmem with rfl | hm
      · exact List.mem_cons_self _ _
      · exact List.mem_cons_of_mem _ hm
    · intro x hx
      rcases List.mem_cons.mp hx with rfl | hxt
      · exact hcb
      · exact hall x hxt

/-! Claim theorems. -/

/-- C1: for the README catalog, which contains the compound index
{tenantId:1, status:1, createdAt:-1}, and the query shape with equality
predicates on tenantId and status, sort {createdAt:-1} and limit 20, the
Plan Estimator returns an index-scan with no in-memory sort, using that
compound index. -/
theorem c1_dashboard_plan :
    (estimate readmeRegistry readmeCatalog dashboardShape).scanKind =
        ScanKind.indexScan ∧
    (estimate readmeRegistry readmeCatalog dashboardShape).inMemorySort =
        false ∧
    (estimate readmeRegistry readmeCatalog dashboardShape).indexUsed =
        some "tenant_dashboard_idx" := by
  refine ⟨?_, ?_, ?_⟩ <;> decide

/-- C4 counterexample: for the catalog containing the compound index
{tenantId:1, status:1, createdAt:-1} and the shape with equality on tenantId
only and sort {updatedAt:-1}, the estimator does NOT return a collection
scan with an in-memory sort, contrary to the claim: the tenantId equality
prefix makes the compound index a candidate, so an index-scan is chosen. -/
theorem c4_counterexample :
    ¬ ((estimate readmeRegistry readmeCatalog tenantUpdatedShape).scanKind =
          ScanKind.collectionScan ∧
       (estimate readmeRegistry readmeCatalog tenantUpdatedShape).inMemorySort =
          true) := by
  decide

/-- C4 amended: for the catalog containing the compound index
{tenantId:1, status:1, createdAt:-1} and the shape with equality on tenantId
only and sort {updatedAt:-1}, the Plan Estimator selects that index on its
tenantId equality prefix and returns an index-scan whose updatedAt sort is
not satisfied by the index, so an in-memory sort is required. -/
theorem c4_tenant_updated_plan :
    (estimate readmeRegistry readmeCatalog tenantUpdatedShape).scanKind =
        ScanKind.indexScan ∧
    (estimate readmeRegistry readmeCatalog tenantUpdatedShape).inMemorySort =
        true ∧
    (estimate readmeRegistry readmeCatalog tenantUpdatedShape).indexUsed =
        some "tenant_dashboard_idx" := by
  refine ⟨?_, ?_, ?_⟩ <;> decide

/-- C5: for the README catalog, whose text index covers subject, description
and tags, a shape with text terms refund and delayed yields a text-scan
using that text index; and for every catalog with no text index, every shape
with a nonempty text-term list yields a collection-scan. -/
theorem c5_text_plan :
    ((estimate readmeRegistry readmeCatalog refundDelayedShape).scanKind =
        ScanKind.textScan ∧
     (estimate readmeRegistry readmeCatalog refundDelayedShape).indexUsed =
        some "ticket_text_idx") ∧
    ∀ (reg : Registry) (cat : Catalog) (s : QueryShape),
      (∀ i ∈ cat, isTextIdx i = false) → s.textTerms ≠ [] →
      (estimate reg cat s).scanKind = ScanKind.collectionScan := by
  constructor
  · exact ⟨by decide, by decide⟩
  · intro reg cat s hno hterms
    have hfind : findTextIdx cat = none := by
      unfold findTextIdx
      rw [List.find?_eq_none]
      intro x hx
      simp [hno x hx]
    cases hterm : s.textTerms with
    | nil => exact absurd hterm hterms
    | cons t ts => simp [estimate, hterm, hfind]

/-- C5 witness: the second conjunct applied to the empty catalog and the
refund/delayed shape. -/
theorem c5_witness :
    (estimate readmeRegistry [] refundDelayedShape).scanKind =
      ScanKind.collectionScan :=
  c5_text_plan.2 readmeRegistry [] refundDelayedShape (by simp) (by decide)

/-- C6: adding any second text index to a catalog that already holds one
always fails with the conflicting-text-index error, regardless of the
catalog's other contents; and a successful addIndex keeps the catalog's
text-index count at most one. -/
theorem c6_single_text_index :
    (∀ (cat : Catalog) (idx : IndexDef),
      hasTextIndex cat = true → isTextIdx idx = true →
      addIndex cat idx = Except.error CatalogError.conflictingTextIndex) ∧
    (∀ (cat : Catalog) (idx : IndexDef) (cat2 : Catalog),
      textCount cat ≤ 1 → addIndex cat idx = Except.ok cat2 →
      textCount cat2 ≤ 1) := by
  constructor
  · intro cat idx h1 h2
    simp [addIndex, h1, h2]
  · intro cat idx cat2 hle hok
    by_cases htext : isTextIdx idx = true
    · by_cases hhas : hasTextIndex cat = true
      · simp [addIndex, htext, hhas] at hok
      · have hany : cat.any isTextIdx = false := by
          have hfb : hasTextIndex cat = false := by
            cases hcase : hasTextIndex cat
            · rfl
            · exact absurd hcase hhas
          simpa [hasTextIndex] using hfb
        have hflt : cat.filter isTextIdx = [] := by
          rw [List.filter_eq_nil_iff]
          intro a ha
          have hfa := List.any_eq_false.mp hany a ha
          simpa using hfa
        have hcat2 : cat2 = cat ++ [idx] := by
          simp [addIndex, htext, hhas] at hok
          exact hok.symm
        rw [hcat2]
        simp [textCount, List.filter_append, hflt, htext]
    · have hcat2 : cat2 = cat ++ [idx] := by
        simp [addIndex, htext] at hok
        exact hok.symm
      rw [hcat2]
      have hfalse : isTextIdx idx = false := Bool.eq_false_iff.mpr htext
      simpa [textCount, List.filter_append, hfalse] using hle

/-- C6 witness: the conflict case on a one-text-index catalog, and the
preservation case on the README catalog extended by a compound index. -/
theorem c6_witness :
    addIndex [ticketTextIdx] (IndexDef.text "second_text" ["subject"]) =
      Except.error CatalogError.conflictingTextIndex ∧
    textCount (readmeCatalog ++ [IndexDef.compound "extra_idx" []]) ≤ 1 :=
  ⟨c6_single_text_index.1 [ticketTextIdx] (IndexDef.text "second_text" ["subject"])
      (by decide) (by decide),
   c6_single_text_index.2 readmeCatalog (IndexDef.compound "extra_idx" [])
      (readmeCatalog ++ [IndexDef.compound "extra_idx" []]) (by decide) rfl⟩

/-- C8: for every query shape whose equality, range and sort sets are empty
and whose text-term list is empty, and every registry and catalog, the Plan
Estimator returns a collection-scan examining the total document count. -/
theorem c8_empty_shape_collscan :
    ∀ (reg : Registry) (cat : Catalog) (s : QueryShape),
      s.eqFields = [] → s.rangeFields = [] → s.sortSpec = [] →
      s.textTerms = [] →
      estimate reg cat s =
        { scanKind := ScanKind.collectionScan, indexUsed := none,
          inMemorySort := false, estimatedExamined := reg.totalDocs } := by
  intro reg cat s h1 h2 h3 h4
  have hc := candidatesOf_empty_shape reg cat s h1 h2
  simp [estimate, h3, h4, hc, selectBest]

/-- C8 witness: the empty shape against the README registry and catalog. -/
theorem c8_witness :
    estimate readmeRegistry readmeCatalog emptyShape =
      { scanKind := ScanKind.collectionScan, indexUsed := none,
        inMemorySort := false, estimatedExamined := 50000 } :=
  c8_empty_shape_collscan readmeRegistry readmeCatalog emptyShape rfl rfl rfl rfl

/-- C10: the optimized search query of src/queries/query2_text_search.js and
the native text-search query of src/text-search/text_search.js are the same
query — a $text search for "refund delayed response" on db.tickets
projecting and sorting by the textScore meta field — and therefore denote
the same result list over every document list. -/
theorem c10_same_query :
    query2AfterOptimization = nativeTextSearchQuery ∧
    sameTextResults query2AfterOptimization nativeTextSearchQuery :=
  ⟨rfl, fun _ => rfl⟩

/-- C7: the Plan Estimator is deterministic — equal (shape, catalog) inputs
yield equal Plan Decisions — and ties are broken exactly as specified: the
selected candidate is one no other candidate beats under lower estimated
examined count, then longer matched prefix, then earlier registration, and
the estimator's reported index is that selected candidate's. -/
theorem c7_deterministic_tiebreak :
    (∀ (reg : Registry) (cat : Catalog) (s1 s2 : QueryShape), s1 = s2 →
      estimate reg cat s1 = estimate reg cat s2) ∧
    (∀ (reg : Registry) (cat : Catalog) (s : QueryShape) (b : Cand),
      selectBest (candidatesOf reg cat s) = some b →
      b ∈ candidatesOf reg cat s ∧
        ∀ c ∈ candidatesOf reg cat s, ¬ betterCand c b) ∧
    (∀ (reg : Registry) (cat : Catalog) (s : QueryShape) (b : Cand),
      s.textTerms = [] → selectBest (candidatesOf reg cat s) = some b →
      (estimate reg cat s).indexUsed = some b.name) := by
  refine ⟨?_, ?_, ?_⟩
  · intro reg cat s1 s2 h
    rw [h]
  · intro reg cat s b h
    exact selectBest_spec _ b h
  · intro reg cat s b ht h
    simp [estimate, ht, h]

/-- C7 witness: the dashboard scenario — evaluating twice yields the same
decision, and the tie-break winner's name is the reported index. -/
theorem c7_witness :
    estimate readmeRegistry readmeCatalog dashboardShape =
      estimate readmeRegistry readmeCatalog dashboardShape ∧
    (estimate readmeRegistry readmeCatalog dashboardShape).indexUsed =
      some "tenant_dashboard_idx" :=
  ⟨c7_deterministic_tiebreak.1 readmeRegistry readmeCatalog dashboardShape
      dashboardShape rfl,
   c7_deterministic_tiebreak.2.2 readmeRegistry readmeCatalog dashboardShape
      ⟨0, "tenant_dashboard_idx",
       [("tenantId", Direction.asc), ("status", Direction.asc),
        ("createdAt", Direction.desc)], 2, false, 1250⟩
      rfl (by decide)⟩

/-- C2: for every non-text query shape, the walk that scores a candidate
compound index satisfies the specified match-score computation — each index
field in the contiguous run lying in the shape's equality set divides the
estimated examined count by that field's cardinality; the single field
immediately after that run, when it lies in the shape's range set, halves
the estimate and terminates the run — and no index field beyond that
boundary contributes: the walk's outcome is unchanged under arbitrary
replacement of the tail after the first non-equality field. -/
theorem c2_match_score :
    (∀ (reg : Registry) (s : QueryShape) (fields : List (String × Direction))
       (total : Nat), s.textTerms = [] →
      walk reg s.eqFields s.rangeFields fields total =
        ⟨(eqMatchedFields s.eqFields fields).length,
         rangeBoundary s.eqFields s.rangeFields fields,
         if rangeBoundary s.eqFields s.rangeFields fields then
           dividedByCards reg total (eqMatchedFields s.eqFields fields) / 2
         else dividedByCards reg total (eqMatchedFields s.eqFields fields)⟩) ∧
    (∀ (reg : Registry) (s : QueryShape) (x : String × Direction)
       (pre t1 t2 : List (String × Direction)) (total : Nat),
      s.textTerms = [] → x.1 ∉ s.eqFields →
      walk reg s.eqFields s.rangeFields (pre ++ x :: t1) total =
        walk reg s.eqFields s.rangeFields (pre ++ x :: t2) total) := by
  constructor
  · intro reg s fields total _
    exact walk_eq_spec reg s.eqFields s.rangeFields fields total
  · intro reg s x pre t1 t2 total _ hx
    exact walk_tail_irrelevant reg s.eqFields s.rangeFields x hx pre t1 t2 total

/-- C2 witness: the dashboard shape against the tenant dashboard index's
field list — two equality fields divide 50000 by 10 and 4, no range
extension — and tail irrelevance past the first non-equality field. -/
theorem c2_witness :
    walk readmeRegistry dashboardShape.eqFields dashboardShape.rangeFields
        [("tenantId", Direction.asc), ("status", Direction.asc),
         ("createdAt", Direction.desc)] 50000 = ⟨2, false, 1250⟩ ∧
    walk readmeRegistry dashboardShape.eqFields dashboardShape.rangeFields
        [("tenantId", Direction.asc), ("createdAt", Direction.desc)] 50000 =
      walk readmeRegistry dashboardShape.eqFields dashboardShape.rangeFields
        [("tenantId", Direction.asc), ("createdAt", Direction.desc),
         ("status", Direction.asc)] 50000 :=
  ⟨c2_match_score.1 readmeRegistry dashboardShape
      [("tenantId", Direction.asc), ("status", Direction.asc),
       ("createdAt", Direction.desc)] 50000 rfl,
   c2_match_score.2 readmeRegistry dashboardShape ("createdAt", Direction.desc)
      [("tenantId", Direction.asc)] [] [("status", Direction.asc)] 50000 rfl
      (by decide)⟩

/-- C3 counterexample: the shape with no equality fields, no text terms and
sort {createdAt:-1}, against a catalog containing the index whose field list
is exactly the shape's (empty) equality fields followed by the sort field
createdAt, is answered with a collection-scan, not the index-scan the claim
requires: with no matched prefix the estimator never selects an index. -/
theorem c3_counterexample :
    (estimate readmeRegistry slaOnlyCatalog sortOnlyShape).scanKind ≠
      ScanKind.indexScan := by
  decide

/-- C3 amended: for every query shape with no text terms, a nonempty
equality field set, and a single-field sort on a field outside the equality
set, and every catalog whose only index's field list consists exactly of the
shape's equality fields (in any order) followed by the sort field (either
direction), the Plan Estimator returns an index-scan with no in-memory sort. -/
theorem c3_eq_fields_then_sort (reg : Registry) (s : QueryShape) (nm : String)
    (pre : List (String × Direction)) (f : String) (dI dS : Direction)
    (htext : s.textTerms = [])
    (hsort : s.sortSpec = [(f, dS)])
    (hperm : List.Perm (pre.map Prod.fst) s.eqFields)
    (hne : s.eqFields ≠ [])
    (hf : f ∉ s.eqFields) :
    (estimate reg [IndexDef.compound nm (pre ++ [(f, dI)])] s).scanKind =
        ScanKind.indexScan ∧
    (estimate reg [IndexDef.compound nm (pre ++ [(f, dI)])] s).inMemorySort =
        false := by
  have hpre : ∀ p ∈ pre, p.1 ∈ s.eqFields := fun p hp =>
    hperm.mem_iff.mp (List.mem_map_of_mem Prod.fst hp)
  have hprene : pre ≠ [] := by
    intro h0
    apply hne
    have h1 := hperm
    rw [h0] at h1
    exact h1.symm.eq_nil
  have hq : ∀ p ∈ pre,
      (fun p : String × Direction => decide (p.1 ∈ s.eqFields)) p = true := by
    intro p hp
    simpa using hpre p hp
  have hqx :
      (fun p : String × Direction => decide (p.1 ∈ s.eqFields)) (f, dI) = false := by
    simp [hf]
  have hmf : eqMatchedFields s.eqFields (pre ++ [(f, dI)]) = pre :=
    takeWhile_append_all _ pre (f, dI) [] hq hqx
  have hdrop : (pre ++ [(f, dI)]).drop pre.length = [(f, dI)] :=
    List.drop_left pre [(f, dI)]
  have hwalk := walk_eq_spec reg s.eqFields s.rangeFields (pre ++ [(f, dI)])
    reg.totalDocs
  rw [hmf] at hwalk
  have heqlen :
      (walk reg s.eqFields s.rangeFields (pre ++ [(f, dI)]) reg.totalDocs).eqLen =
        pre.length := by
    rw [hwalk]
  have hpos : 0 <
      (walk reg s.eqFields s.rangeFields (pre ++ [(f, dI)]) reg.totalDocs).eqLen := by
    rw [heqlen]
    exact List.length_pos.mpr hprene
  have hcand : candidatesOf reg [IndexDef.compound nm (pre ++ [(f, dI)])] s =
      [⟨0, nm, pre ++ [(f, dI)],
        (walk reg s.eqFields s.rangeFields (pre ++ [(f, dI)])
          reg.totalDocs).eqLen,
        (walk reg s.eqFields s.rangeFields (pre ++ [(f, dI)])
          reg.totalDocs).rangeExt,
        (walk reg s.eqFields s.rangeFields (pre ++ [(f, dI)])
          reg.totalDocs).examined⟩] := by
    simp [candidatesOf, List.enum, List.enumFrom, hpos]
  have hsel : selectBest (candidatesOf reg
      [IndexDef.compound nm (pre ++ [(f, dI)])] s) =
      some ⟨0, nm, pre ++ [(f, dI)],
        (walk reg s.eqFields s.rangeFields (pre ++ [(f, dI)])
          reg.totalDocs).eqLen,
        (walk reg s.eqFields s.rangeFields (pre ++ [(f, dI)])
          reg.totalDocs).rangeExt,
        (walk reg s.eqFields s.rangeFields (pre ++ [(f, dI)])
          reg.totalDocs).examined⟩ := by
    rw [hcand]
    rfl
  have hsat : sortSatisfiedBy (pre ++ [(f, dI)])
      (walk reg s.eqFields s.rangeFields (pre ++ [(f, dI)])
        reg.totalDocs).eqLen s.sortSpec = true := by
    rw [heqlen, hsort]
    unfold sortSatisfiedBy
    rw [hdrop]
    cases dI <;> cases dS <;> simp [flipSort, flipDir]
  constructor
  · simp [estimate, htext, hsel]
  · simp [estimate, htext, hsel, hsat]

/-- C3 witness: the dashboard shape with its equality fields reordered as
status then tenantId, followed by the createdAt sort field ascending (the
exact reverse direction of the requested descending sort), as the only
index of the catalog. -/
theorem c3_witness :
    (estimate readmeRegistry
        [IndexDef.compound "status_tenant_created_idx"
          [("status", Direction.asc), ("tenantId", Direction.asc),
           ("createdAt", Direction.asc)]] dashboardShape).scanKind =
        ScanKind.indexScan ∧
    (estimate readmeRegistry
        [IndexDef.compound "status_tenant_created_idx"
          [("status", Direction.asc), ("tenantId", Direction.asc),
           ("createdAt", Direction.asc)]] dashboardShape).inMemorySort =
        false :=
  c3_eq_fields_then_sort readmeRegistry dashboardShape
    "status_tenant_created_idx"
    [("status", Direction.asc), ("tenantId", Direction.asc)]
    "createdAt" Direction.asc Direction.desc
    rfl rfl (by decide) (by decide) (by decide)

/-- C9: the Advisor fails with the empty-workload error exactly on an empty
workload: an empty workload always yields it, a nonempty workload never
does; and whenever the Advisor fails with the budget-exceeded error, the
partial index set it carries consists of generated workload candidates —
the greedy work done so far is returned, not discarded (and the greedy loop
is a total function, so it cannot loop unbounded). -/
theorem c9_advisor_errors :
    (∀ (reg : Registry) (k budget : Nat),
      advise reg [] k budget = Except.error AdvisorError.emptyWorkload) ∧
    (∀ (reg : Registry) (w : Workload) (k budget : Nat) (p : List IndexDef),
      advise reg w k budget = Except.error (AdvisorError.budgetExceeded p) →
      ∀ x ∈ p, x ∈ generateCandidates w) ∧
    (∀ (reg : Registry) (w : Workload) (k budget : Nat), w ≠ [] →
      advise reg w k budget ≠ Except.error AdvisorError.emptyWorkload) := by
  refine ⟨?_, ?_, ?_⟩
  · intro reg k budget
    simp [advise]
  · intro reg w k budget p h x hx
    unfold advise at h
    by_cases hw : w = []
    · rw [if_pos hw] at h
      simp at h
    · rw [if_neg hw] at h
      rcases greedyLoop_error_sub reg w k (generateCandidates w) [] budget p h
          x hx with h1 | h2
      · simp at h1
      · exact h2
  · intro reg w k budget hw
    unfold advise
    rw [if_neg hw]
    exact greedyLoop_no_empty_error reg w k (generateCandidates w) [] budget

/-- C9 witness: the empty workload fails with the empty-workload error, and
the tiny two-field workload with index budget 2 and evaluation budget 2
fails with the budget-exceeded error carrying the two-field candidate it had
already greedily chosen, which is a generated candidate of that workload. -/
theorem c9_witness :
    advise readmeRegistry [] 1 5 = Except.error AdvisorError.emptyWorkload ∧
    IndexDef.compound "wl_cand_2"
        [("tenantId", Direction.asc), ("status", Direction.asc)] ∈
      generateCandidates tinyWorkload :=
  ⟨c9_advisor_errors.1 readmeRegistry 1 5,
   c9_advisor_errors.2.1 readmeRegistry tinyWorkload 2 2
     [IndexDef.compound "wl_cand_2"
       [("tenantId", Direction.asc), ("status", Direction.asc)]]
     rfl
     (IndexDef.compound "wl_cand_2"
       [("tenantId", Direction.asc), ("status", Direction.asc)])
     (by decide)⟩
